import Mathlib

/-!
Shallow embedding of the Vynl sampler (vynl-sampler Angular frontend and the
express backend stub), together with proofs about its step sequencer, its
input mapping and its backend handlers.

Conventions of the embedding:
- JavaScript numbers are modelled as exact rationals; decimal literals of the
  source are written as the exact fractions they denote, for example
  0.0002 becomes 2/10000 and 0.007874 becomes 7874/1000000.
- Math.random() draws are modelled by an explicit stream draws : Nat -> Rat
  together with a counter that is advanced exactly where the source calls
  Math.random().
- The Map used for the step playback cache is modelled as a function from
  step index to Option (List SequencerTrack); Map.get on a missing key is
  none, Map.set is pointwise update.
- Angular signal state is modelled by explicit state passing: each service
  method becomes a function from the service state to the new service state.
-/

namespace Vynl

/-- The map with index over arrays of JavaScript,
  xs.map((x, i) => f(i, x)), as structural recursion with a starting index. -/
def mapWithIndex {α β : Type} (f : Nat → α → β) : Nat → List α → List β
  | _, [] => []
  | i, a :: as => f i a :: mapWithIndex f (i + 1) as

/-- ASCII model of String.prototype.toLowerCase. -/
def strToLower (s : String) : String := ⟨s.data.map Char.toLower⟩

/-! ## Data model: src/app/types/sequencer.types.ts -/

/-- SequencerStep of sequencer.types.ts. -/
structure SequencerStep where
  isActive : Bool
  velocity : ℚ
  pan : ℚ
  humanize : ℚ
  probability : ℚ
  triplet : Bool
  noteLength : ℚ
  swing : ℚ
  deriving Repr, DecidableEq

/-- SequencerTrack of sequencer.types.ts. -/
structure SequencerTrack where
  id : String
  padIndex : Nat
  name : String
  steps : List SequencerStep
  mute : Bool
  solo : Bool
  volume : ℚ
  pan : ℚ
  color : String
  isSelected : Bool
  deriving Repr, DecidableEq

/-- SequencerPattern of sequencer.types.ts. -/
structure SequencerPattern where
  id : String
  name : String
  tracks : List SequencerTrack
  length : Nat
  swing : ℚ
  humanize : ℚ
  deriving Repr, DecidableEq

/-- PlaybackState of sequencer.types.ts. -/
structure PlaybackState where
  isPlaying : Bool
  currentStep : Nat
  bpm : ℚ
  subdivision : Nat
  deriving Repr, DecidableEq

/-! ## SequencerService (performance edition) construction -/

/-- The default step record of createEmptySteps in sequencer.service.ts. -/
def defaultStep : SequencerStep :=
  { isActive := false
    velocity := 100
    pan := 0
    humanize := 0
    probability := 100
    triplet := false
    noteLength := 1
    swing := 0 }

/-- createEmptySteps: a length-many list of fresh copies of the default step. -/
def createEmptySteps (length : Nat) : List SequencerStep :=
  List.replicate length defaultStep

/-- The pre-computed colors array of getTrackColor. -/
def trackColors : List String :=
  ["#6c757d", "#495057", "#343a40", "#212529",
   "#adb5bd", "#dee2e6", "#e9ecef", "#f8f9fa",
   "#6c757d", "#495057", "#343a40", "#212529",
   "#adb5bd", "#dee2e6", "#e9ecef", "#f8f9fa"]

/-- getTrackColor: colors[index % colors.length]. -/
def getTrackColor (index : Nat) : String :=
  (trackColors.getD (index % trackColors.length) "")

/-- One element of the trackData array built by initializePattern. -/
def mkTrack (i : Nat) : SequencerTrack :=
  { id := "track-" ++ toString i
    padIndex := i
    name := "Track " ++ toString (i + 1)
    steps := createEmptySteps 16
    mute := false
    solo := false
    volume := 80
    pan := 0
    color := getTrackColor i
    isSelected := false }

/-- The initial value of the _currentPattern signal. -/
def emptyPattern : SequencerPattern :=
  { id := "pattern-1"
    name := "Main Pattern"
    tracks := []
    length := 16
    swing := 0
    humanize := 0 }

/-- initializePattern: fills the tracks of the current pattern with the
  16-element trackData array. -/
def initializePattern (p : SequencerPattern) : SequencerPattern :=
  { p with tracks := (List.range 16).map mkTrack }

/-- The current pattern right after the SequencerService constructor ran
  initializePattern. -/
def initialPattern : SequencerPattern := initializePattern emptyPattern

/-- The initial value of the _playbackState signal. -/
def initialPlaybackState : PlaybackState :=
  { isPlaying := false, currentStep := 0, bpm := 120, subdivision := 16 }

/-! ## The step playback cache -/

/-- The stepPlaybackCache Map, as a function from step index to the stored
  track list; a missing key is none. -/
def Cache : Type := Nat → Option (List SequencerTrack)

/-- A cleared Map. -/
def cacheClear : Cache := fun _ => none

/-- Map.set. -/
def cacheSet (c : Cache) (k : Nat) (v : List SequencerTrack) : Cache :=
  fun s => if s = k then some v else c s

/-- The test track.steps[stepIndex]?.isActive of the source: optional
  chaining on an out-of-range index yields undefined, which is falsy. -/
def stepActive (t : SequencerTrack) (s : Nat) : Bool :=
  (t.steps[s]?.map (fun st => st.isActive)).getD false

/-- The filter pattern.tracks.filter(track => !track.mute &&
  track.steps[stepIndex]?.isActive) shared by precomputeStepPlayback and
  updateStepCache. -/
def activeTracksForStep (p : SequencerPattern) (s : Nat) : List SequencerTrack :=
  p.tracks.filter (fun t => !t.mute && stepActive t s)

/-- precomputeStepPlayback: clears the cache and then, for every stepIndex
  below pattern.length, stores the active unmuted tracks of that step. -/
def precomputeStepPlayback (p : SequencerPattern) : Cache :=
  (List.range p.length).foldl
    (fun c stepIndex => cacheSet c stepIndex (activeTracksForStep p stepIndex))
    cacheClear

/-- updateStepCache: recomputes the cache entry of a single step index from
  the current pattern. -/
def updateStepCache (p : SequencerPattern) (c : Cache) (stepIndex : Nat) : Cache :=
  cacheSet c stepIndex (activeTracksForStep p stepIndex)

/-! ## Pattern updates of SequencerService -/

/-- The inner steps.map of the pattern updates: patch the step whose index
  matches with f, keep every other step. -/
def patchSteps (f : SequencerStep → SequencerStep) (stepIndex : Nat)
    (steps : List SequencerStep) : List SequencerStep :=
  mapWithIndex (fun index step => if index = stepIndex then f step else step) 0 steps

/-- The tracks.map body of the pattern updates: on the track whose id
  matches, patch its steps; keep every other track. -/
def patchTrack (trackId : String) (f : SequencerStep → SequencerStep)
    (stepIndex : Nat) (track : SequencerTrack) : SequencerTrack :=
  if track.id = trackId then { track with steps := patchSteps f stepIndex track.steps }
  else track

/-- The shared update shape of toggleStepImmediate,
  updateStepVelocityImmediate and updateStepPanImmediate: map over the
  tracks, and on the track whose id matches, map over the steps patching the
  step at stepIndex with f. -/
def updateTrackStep (p : SequencerPattern) (trackId : String)
    (f : SequencerStep → SequencerStep) (stepIndex : Nat) : SequencerPattern :=
  { p with tracks := p.tracks.map (patchTrack trackId f stepIndex) }

/-- The pattern update of toggleStepImmediate (and of toggleStep):
  flip isActive of the addressed step. -/
def toggleStepPattern (p : SequencerPattern) (trackId : String) (stepIndex : Nat) :
    SequencerPattern :=
  updateTrackStep p trackId (fun step => { step with isActive := !step.isActive }) stepIndex

/-- The pattern update of updateStepVelocityImmediate: clamp the velocity to
  [0, 127] and store it on the addressed step. -/
def updateStepVelocityPattern (p : SequencerPattern) (trackId : String)
    (stepIndex : Nat) (velocity : ℚ) : SequencerPattern :=
  let clampedVelocity := max 0 (min 127 velocity)
  updateTrackStep p trackId (fun step => { step with velocity := clampedVelocity }) stepIndex

/-- The pattern update of updateStepPanImmediate: clamp the pan to [-1, 1]
  and store it on the addressed step. -/
def updateStepPanPattern (p : SequencerPattern) (trackId : String)
    (stepIndex : Nat) (pan : ℚ) : SequencerPattern :=
  let clampedPan := max (-1) (min 1 pan)
  updateTrackStep p trackId (fun step => { step with pan := clampedPan }) stepIndex

/-! ## Service state and the service methods -/

/-- The mutable state of SequencerService that the claims mention: the
  _currentPattern signal, the stepPlaybackCache and the _playbackState
  signal. -/
structure ServiceState where
  pattern : SequencerPattern
  cache : Cache
  playback : PlaybackState

/-- The state established by the SequencerService constructor:
  initializePattern then precomputeStepPlayback. -/
def initialService : ServiceState :=
  { pattern := initialPattern
    cache := precomputeStepPlayback initialPattern
    playback := initialPlaybackState }

/-- toggleStepImmediate: update the pattern, then updateStepCache on the
  toggled step index. -/
def toggleStepImmediate (st : ServiceState) (trackId : String) (stepIndex : Nat) :
    ServiceState :=
  let p := toggleStepPattern st.pattern trackId stepIndex
  { st with pattern := p, cache := updateStepCache p st.cache stepIndex }

/-- updateStepVelocityImmediate: updates the pattern only; the cache is not
  touched. -/
def updateStepVelocityImmediate (st : ServiceState) (trackId : String)
    (stepIndex : Nat) (velocity : ℚ) : ServiceState :=
  { st with pattern := updateStepVelocityPattern st.pattern trackId stepIndex velocity }

/-- updateStepPanImmediate: updates the pattern only; the cache is not
  touched. -/
def updateStepPanImmediate (st : ServiceState) (trackId : String)
    (stepIndex : Nat) (pan : ℚ) : ServiceState :=
  { st with pattern := updateStepPanPattern st.pattern trackId stepIndex pan }

/-- updateGlobalHumanize: clamp to [0, 100] and store on the pattern. -/
def updateGlobalHumanize (st : ServiceState) (amount : ℚ) : ServiceState :=
  { st with pattern := { st.pattern with humanize := max 0 (min 100 amount) } }

/-- updateGlobalSwing: clamp to [0, 100] and store on the pattern. -/
def updateGlobalSwing (st : ServiceState) (amount : ℚ) : ServiceState :=
  { st with pattern := { st.pattern with swing := max 0 (min 100 amount) } }

/-- setBPM: clamp to [60, 200] and store on the playback state. -/
def setBPM (st : ServiceState) (bpm : ℚ) : ServiceState :=
  { st with playback := { st.playback with bpm := max 60 (min 200 bpm) } }

/-- toggleMute: flip mute on the addressed track, then run a full
  precomputeStepPlayback. -/
def toggleMute (st : ServiceState) (trackId : String) : ServiceState :=
  let p := { st.pattern with
    tracks := st.pattern.tracks.map (fun track =>
      if track.id = trackId then { track with mute := !track.mute } else track) }
  { st with pattern := p, cache := precomputeStepPlayback p }

/-- toggleSolo: flip solo on the addressed track, then run a full
  precomputeStepPlayback. -/
def toggleSolo (st : ServiceState) (trackId : String) : ServiceState :=
  let p := { st.pattern with
    tracks := st.pattern.tracks.map (fun track =>
      if track.id = trackId then { track with solo := !track.solo } else track) }
  { st with pattern := p, cache := precomputeStepPlayback p }

/-- The state change of play(): a fresh precomputeStepPlayback from the
  current pattern, and isPlaying set. -/
def play (st : ServiceState) : ServiceState :=
  { st with
    cache := precomputeStepPlayback st.pattern
    playback := { st.playback with isPlaying := true } }

/-! ## Playback: playStep (naive edition) and playStepOptimized -/

/-- One call of audioService.playPadWithEffects during playback. -/
structure TriggerEvent where
  padIndex : Nat
  velocity : ℚ
  pan : ℚ
  time : ℚ
  deriving Repr, DecidableEq

/-- The humanize branch of the naive playStep: when the step or the pattern
  has positive humanize, add (Math.random() - 0.5) * (max / 100) * 0.02 to
  the time, consuming one draw. Returns the new time and draw counter. -/
def humanizedTimeNaive (p : SequencerPattern) (step : SequencerStep)
    (time : ℚ) (draws : Nat → ℚ) (k : Nat) : ℚ × Nat :=
  if step.humanize > 0 ∨ p.humanize > 0 then
    let humanizeAmount := max step.humanize p.humanize / 100
    let variation := (draws k - 1/2) * humanizeAmount * (2/100)
    (time + variation, k + 1)
  else (time, k)

/-- The swing branch of the naive playStep: when the step or the pattern has
  positive swing, odd step indices are delayed by (max / 100) * 0.05. -/
def swungTimeNaive (p : SequencerPattern) (step : SequencerStep)
    (stepIndex : Nat) (t : ℚ) : ℚ :=
  if step.swing > 0 ∨ p.swing > 0 then
    let swingAmount := max step.swing p.swing / 100
    if stepIndex % 2 = 1 then t + swingAmount * (5/100) else t
  else t

/-- The humanize branch of playStepOptimized: the pre-calculated constant
  0.0002 replaces the division, max * 0.0002 times (Math.random() - 0.5). -/
def humanizedTimeOpt (p : SequencerPattern) (step : SequencerStep)
    (time : ℚ) (draws : Nat → ℚ) (k : Nat) : ℚ × Nat :=
  if step.humanize > 0 ∨ p.humanize > 0 then
    let humanizeAmount := max step.humanize p.humanize * (2/10000)
    let variation := (draws k - 1/2) * humanizeAmount
    (time + variation, k + 1)
  else (time, k)

/-- The swing branch of playStepOptimized: the pre-calculated constant
  0.0005, odd step indices delayed by max * 0.0005. -/
def swungTimeOpt (p : SequencerPattern) (step : SequencerStep)
    (stepIndex : Nat) (t : ℚ) : ℚ :=
  if step.swing > 0 ∨ p.swing > 0 then
    let swingAmount := max step.swing p.swing * (5/10000)
    if stepIndex % 2 = 1 then t + swingAmount else t
  else t

/-- The body of the forEach of the naive playStep for one track: mute guard,
  isActive guard, probability gate (one draw), humanize, swing, velocity
  step.velocity / 127, then the playPadWithEffects call. Returns the emitted
  events and the advanced draw counter. -/
def processTrackNaive (p : SequencerPattern) (stepIndex : Nat) (time : ℚ)
    (draws : Nat → ℚ) (k : Nat) (track : SequencerTrack) :
    List TriggerEvent × Nat :=
  if track.mute then ([], k)
  else
    match track.steps[stepIndex]? with
    | none => ([], k)
    | some step =>
      if !step.isActive then ([], k)
      else
        let r := draws k
        if r * 100 > step.probability then ([], k + 1)
        else
          let tk := humanizedTimeNaive p step time draws (k + 1)
          let scheduledTime := swungTimeNaive p step stepIndex tk.1
          let velocity := step.velocity / 127
          ([{ padIndex := track.padIndex, velocity := velocity,
              pan := step.pan, time := scheduledTime }], tk.2)

/-- The body of the forEach of playStepOptimized for one track: the tracks
  come from the cache, so there is no mute guard; isActive guard,
  probability gate, humanize, swing, velocity step.velocity * 0.007874. -/
def processTrackOpt (p : SequencerPattern) (stepIndex : Nat) (time : ℚ)
    (draws : Nat → ℚ) (k : Nat) (track : SequencerTrack) :
    List TriggerEvent × Nat :=
  match track.steps[stepIndex]? with
  | none => ([], k)
  | some step =>
    if !step.isActive then ([], k)
    else
      let r := draws k
      if r * 100 > step.probability then ([], k + 1)
      else
        let tk := humanizedTimeOpt p step time draws (k + 1)
        let scheduledTime := swungTimeOpt p step stepIndex tk.1
        let velocity := step.velocity * (7874/1000000)
        ([{ padIndex := track.padIndex, velocity := velocity,
            pan := step.pan, time := scheduledTime }], tk.2)

/-- Sequential forEach over a track list with the naive per-track body,
  threading the draw counter and accumulating the emitted events in order. -/
def runTracksNaive (p : SequencerPattern) (stepIndex : Nat) (time : ℚ)
    (draws : Nat → ℚ) : List SequencerTrack → Nat → List TriggerEvent × Nat
  | [], k => ([], k)
  | t :: ts, k =>
    let ek := processTrackNaive p stepIndex time draws k t
    let rest := runTracksNaive p stepIndex time draws ts ek.2
    (ek.1 ++ rest.1, rest.2)

/-- Sequential forEach over a track list with the optimized per-track body. -/
def runTracksOpt (p : SequencerPattern) (stepIndex : Nat) (time : ℚ)
    (draws : Nat → ℚ) : List SequencerTrack → Nat → List TriggerEvent × Nat
  | [], k => ([], k)
  | t :: ts, k =>
    let ek := processTrackOpt p stepIndex time draws k t
    let rest := runTracksOpt p stepIndex time draws ts ek.2
    (ek.1 ++ rest.1, rest.2)

/-- The naive playStep: iterates over all tracks of the pattern. -/
def playStep (p : SequencerPattern) (stepIndex : Nat) (time : ℚ)
    (draws : Nat → ℚ) : List TriggerEvent × Nat :=
  runTracksNaive p stepIndex time draws p.tracks 0

/-- playStepOptimized: reads the track list from the cache; on a missing key
  or an empty list it returns without triggering anything. -/
def playStepOptimized (cache : Cache) (p : SequencerPattern) (stepIndex : Nat)
    (time : ℚ) (draws : Nat → ℚ) : List TriggerEvent × Nat :=
  match cache stepIndex with
  | none => ([], 0)
  | some tracks =>
    if tracks.isEmpty then ([], 0)
    else runTracksOpt p stepIndex time draws tracks 0

/-- Velocity rescaling that relates the optimized velocity constant 0.007874
  to the naive division by 127: 0.007874 * 127 = 0.999998. -/
def scaleVel (e : TriggerEvent) : TriggerEvent :=
  { e with velocity := e.velocity * (499999/500000) }

/-! ## InputService: src/app/services/input.service.ts -/

/-- KeyMapping of input.service.ts. -/
structure KeyMapping where
  key : String
  padIndex : Nat
  keyCode : Option String := none
  deriving Repr, DecidableEq

/-- The static qwertyMapping table: two rows of eight keys. -/
def qwertyMapping : List KeyMapping :=
  [{ key := "q", padIndex := 0 }, { key := "w", padIndex := 1 },
   { key := "e", padIndex := 2 }, { key := "r", padIndex := 3 },
   { key := "t", padIndex := 4 }, { key := "y", padIndex := 5 },
   { key := "u", padIndex := 6 }, { key := "i", padIndex := 7 },
   { key := "a", padIndex := 8 }, { key := "s", padIndex := 9 },
   { key := "d", padIndex := 10 }, { key := "f", padIndex := 11 },
   { key := "g", padIndex := 12 }, { key := "h", padIndex := 13 },
   { key := "j", padIndex := 14 }, { key := "k", padIndex := 15 }]

/-- The static numberMapping table: digits and shifted digits. -/
def numberMapping : List KeyMapping :=
  [{ key := "1", padIndex := 0 }, { key := "2", padIndex := 1 },
   { key := "3", padIndex := 2 }, { key := "4", padIndex := 3 },
   { key := "5", padIndex := 4 }, { key := "6", padIndex := 5 },
   { key := "7", padIndex := 6 }, { key := "8", padIndex := 7 },
   { key := "9", padIndex := 8 }, { key := "0", padIndex := 9 },
   { key := "!", padIndex := 10 }, { key := "@", padIndex := 11 },
   { key := "#", padIndex := 12 }, { key := "$", padIndex := 13 },
   { key := "%", padIndex := 14 }, { key := "^", padIndex := 15 }]

/-- handleKeyDown: lowercases event.key, ignores a key that is already in the
  pressed-keys set, otherwise adds it and looks it up first in qwertyMapping
  (by the lowercased key) and then in numberMapping (by the raw event.key).
  The result is the triggered pad, if any, and the new pressed-keys set; the
  space and escape branches trigger no pad. -/
def handleKeyDown (pressedKeys : List String) (eventKey : String) :
    Option Nat × List String :=
  let key := strToLower eventKey
  if pressedKeys.contains key then (none, pressedKeys)
  else
    let pressed := key :: pressedKeys
    match qwertyMapping.find? (fun m => m.key == key) with
    | some m => (some m.padIndex, pressed)
    | none =>
      match numberMapping.find? (fun m => m.key == eventKey) with
      | some m => (some m.padIndex, pressed)
      | none => (none, pressed)

/-- handleMIDIMessage: destructures [status, note, velocity] from the event
  data; a note-on status (144 to 159) with velocity above 0 maps note - 48 to
  a pad when that index lies in [0, 16); everything else triggers no pad. -/
def handleMIDIMessage (status note velocity : Nat) : Option Nat :=
  if 144 ≤ status ∧ status ≤ 159 ∧ 0 < velocity then
    let padIndex : Int := (note : Int) - 48
    if 0 ≤ padIndex ∧ padIndex < 16 then some padIndex.toNat else none
  else none

/-! ## Backend controllers: src/backend/src/controllers

The express handlers only ever call res.json with a literal object; none of
them reads or writes any storage. To state that absence of persistence, each
handler is given an explicit store parameter standing for whatever persisted
sample data a real backend would hold, and the embedding shows the store
passes through unchanged, exactly as in the source, which never touches one. -/

/-- Abstract persisted backend data (for example sample id paired with its
  payload); the stub handlers never touch it. -/
def Store : Type := List (String × String)

/-- The JSON bodies the stub handlers respond with. -/
inductive ApiResponse where
  | msg (message : String)
  | samplesFor (samples : List String) (userId : String)
  deriving Repr, DecidableEq

namespace audioController

/-- uploadSample: responds with a fixed placeholder message. -/
def uploadSample (store : Store) : Store × ApiResponse :=
  (store, ApiResponse.msg "Upload sample endpoint - Coming soon!")

/-- downloadFromUrl: responds with a fixed placeholder message. -/
def downloadFromUrl (store : Store) : Store × ApiResponse :=
  (store, ApiResponse.msg "Download from URL endpoint - Coming soon!")

/-- getUserSamples: echoes the requested userId with an empty samples array. -/
def getUserSamples (store : Store) (userId : String) : Store × ApiResponse :=
  (store, ApiResponse.samplesFor [] userId)

/-- deleteSample: responds with a success message naming the id, without
  touching the store. -/
def deleteSample (store : Store) (id : String) : Store × ApiResponse :=
  (store, ApiResponse.msg ("Sample " ++ id ++ " deleted"))

end audioController

namespace userController

/-- register: responds with a fixed placeholder message. -/
def register (store : Store) : Store × ApiResponse :=
  (store, ApiResponse.msg "User registration - Coming soon!")

/-- login: responds with a fixed placeholder message. -/
def login (store : Store) : Store × ApiResponse :=
  (store, ApiResponse.msg "User login - Coming soon!")

/-- getProfile: responds with a placeholder message naming the id. -/
def getProfile (store : Store) (id : String) : Store × ApiResponse :=
  (store, ApiResponse.msg ("User profile " ++ id ++ " - Coming soon!"))

end userController

/-! ## Update operations quantified over by the range invariant -/

/-- The public update operations of SequencerService that write numeric
  fields. -/
inductive UpdateOp where
  | velocity (trackId : String) (stepIndex : Nat) (value : ℚ)
  | pan (trackId : String) (stepIndex : Nat) (value : ℚ)
  | humanize (amount : ℚ)
  | swing (amount : ℚ)
  | bpm (value : ℚ)

/-- Dispatch of one update operation to the service method embedding it; the
  debounced public methods funnel into the same immediate bodies. -/
def applyUpdate (st : ServiceState) : UpdateOp → ServiceState
  | .velocity tid s v => updateStepVelocityImmediate st tid s v
  | .pan tid s v => updateStepPanImmediate st tid s v
  | .humanize a => updateGlobalHumanize st a
  | .swing a => updateGlobalSwing st a
  | .bpm b => setBPM st b

/-- Range facts about one step: velocity in [0, 127] and pan in [-1, 1]. -/
def stepRangesOK (st : SequencerStep) : Prop :=
  0 ≤ st.velocity ∧ st.velocity ≤ 127 ∧ -1 ≤ st.pan ∧ st.pan ≤ 1

/-- Range facts about a pattern: every step in range, global swing and
  humanize in [0, 100]. -/
def patternRangesOK (p : SequencerPattern) : Prop :=
  (∀ t ∈ p.tracks, ∀ st ∈ t.steps, stepRangesOK st) ∧
  0 ≤ p.swing ∧ p.swing ≤ 100 ∧ 0 ≤ p.humanize ∧ p.humanize ≤ 100

/-- Range facts about the whole service state, including bpm in [60, 200]. -/
def serviceRangesOK (s : ServiceState) : Prop :=
  patternRangesOK s.pattern ∧ 60 ≤ s.playback.bpm ∧ s.playback.bpm ≤ 200

/-- Full consistency of the step playback cache with a pattern: every step
  index below the pattern length maps to exactly the unmuted tracks whose
  step at that index is active, at their current values. -/
def cacheConsistent (p : SequencerPattern) (c : Cache) : Prop :=
  ∀ s, s < p.length → c s = some (activeTracksForStep p s)

/-! ## Helper lemmas -/

theorem mapWithIndex_length {α β : Type} (f : Nat → α → β) :
    ∀ (i : Nat) (l : List α), (mapWithIndex f i l).length = l.length := by
  intro i l
  induction l generalizing i with
  | nil => rfl
  | cons a as ih => simp [mapWithIndex, ih]

theorem mapWithIndex_getElem? {α β : Type} (f : Nat → α → β) :
    ∀ (i j : Nat) (l : List α),
      (mapWithIndex f i l)[j]? = (l[j]?).map (f (i + j)) := by
  intro i j l
  induction l generalizing i j with
  | nil => simp [mapWithIndex]
  | cons a as ih =>
    cases j with
    | zero => simp [mapWithIndex]
    | succ j =>
      simp only [mapWithIndex, List.getElem?_cons_succ]
      rw [ih]
      have harith : i + 1 + j = i + (j + 1) := by omega
      rw [harith]

theorem mapWithIndex_invol {α : Type} (f : Nat → α → α)
    (h : ∀ j a, f j (f j a) = a) :
    ∀ (i : Nat) (l : List α), mapWithIndex f i (mapWithIndex f i l) = l := by
  intro i l
  induction l generalizing i with
  | nil => rfl
  | cons a as ih => simp [mapWithIndex, h, ih]

theorem mem_mapWithIndex {α β : Type} {f : Nat → α → β} :
    ∀ {i : Nat} {l : List α} {b : β}, b ∈ mapWithIndex f i l →
      ∃ j a, a ∈ l ∧ b = f j a := by
  intro i l
  induction l generalizing i with
  | nil => intro b hb; simp [mapWithIndex] at hb
  | cons a as ih =>
    intro b hb
    simp only [mapWithIndex, List.mem_cons] at hb
    rcases hb with hb | hb
    · exact ⟨i, a, List.mem_cons_self a as, hb⟩
    · obtain ⟨j, a2, ha2, hb2⟩ := ih hb
      exact ⟨j, a2, List.mem_cons_of_mem a ha2, hb2⟩

theorem map_invol {α : Type} (f : α → α) (h : ∀ a, f (f a) = a) :
    ∀ l : List α, (l.map f).map f = l := by
  intro l
  induction l with
  | nil => rfl
  | cons a as ih => simp [h, ih]

/-- Reading the cache produced by the precompute loop: below n it holds the
  active tracks of the step, above n it is whatever the start cache held. -/
theorem foldl_cacheSet_get (p : SequencerPattern) :
    ∀ (n : Nat) (c : Cache) (s : Nat),
      ((List.range n).foldl
        (fun c stepIndex => cacheSet c stepIndex (activeTracksForStep p stepIndex)) c) s
      = if s < n then some (activeTracksForStep p s) else c s := by
  intro n
  induction n with
  | zero => intro c s; simp
  | succ n ih =>
    intro c s
    rw [List.range_succ, List.foldl_append]
    simp only [List.foldl_cons, List.foldl_nil, cacheSet]
    by_cases hsn : s = n
    · subst hsn
      simp
    · rw [if_neg hsn, ih]
      by_cases h : s < n
      · rw [if_pos h, if_pos (by omega)]
      · rw [if_neg h, if_neg (by omega)]

/-- precomputeStepPlayback fills the cache exactly on [0, pattern.length). -/
theorem precomputeStepPlayback_get (p : SequencerPattern) (s : Nat) :
    precomputeStepPlayback p s
      = if s < p.length then some (activeTracksForStep p s) else none := by
  unfold precomputeStepPlayback
  rw [foldl_cacheSet_get]
  rfl

theorem precompute_consistent (p : SequencerPattern) :
    cacheConsistent p (precomputeStepPlayback p) := by
  intro s hs
  rw [precomputeStepPlayback_get, if_pos hs]

/-! ## Concrete fixtures used by witnesses and counterexamples -/

/-- A step that is active with the default values otherwise. -/
def cStep : SequencerStep := { defaultStep with isActive := true }

/-- A one-step unmuted track whose single step is active. -/
def cTrack : SequencerTrack :=
  { id := "t0", padIndex := 0, name := "T0", steps := [cStep], mute := false,
    solo := false, volume := 80, pan := 0, color := "", isSelected := false }

/-- A one-track, one-step pattern with no global swing or humanize. -/
def cPattern : SequencerPattern :=
  { id := "p0", name := "P0", tracks := [cTrack], length := 1, swing := 0,
    humanize := 0 }

/-- A step carrying per-step swing 50. -/
def swingStep : SequencerStep := { defaultStep with swing := 50 }

/-! ## Claim theorems -/

/-- C5: On construction, SequencerService initializes the current pattern
  with exactly 16 tracks whose padIndex values are 0 through 15, each track
  having exactly 16 steps, and every step starts with isActive false,
  velocity 100, pan 0, humanize 0, probability 100, triplet false,
  noteLength 1.0, and swing 0. -/
theorem initialPattern_shape :
    initialPattern.tracks.length = 16 ∧
    initialPattern.tracks.map (fun t => t.padIndex) = List.range 16 ∧
    initialPattern.tracks.all
      (fun t => t.steps.length == 16 &&
        t.steps.all (fun st => decide (st =
          { isActive := false, velocity := 100, pan := 0, humanize := 0,
            probability := 100, triplet := false, noteLength := 1,
            swing := 0 }))) = true := by
  decide

/-- C6: handleMIDIMessage triggers a pad if and only if the status byte is
  in [144, 159], the velocity is greater than 0, and the note is in
  [48, 63]; in that case the triggered pad index is note minus 48, and every
  other MIDI message triggers no pad. -/
theorem handleMIDIMessage_spec (status note velocity p : Nat) :
    handleMIDIMessage status note velocity = some p ↔
      (144 ≤ status ∧ status ≤ 159 ∧ 0 < velocity ∧
        48 ≤ note ∧ note ≤ 63 ∧ p = note - 48) := by
  unfold handleMIDIMessage
  by_cases h1 : 144 ≤ status ∧ status ≤ 159 ∧ 0 < velocity
  · rw [if_pos h1]
    by_cases h2 : (0 : Int) ≤ (note : Int) - 48 ∧ (note : Int) - 48 < 16
    · rw [if_pos h2]
      simp only [Option.some.injEq]
      constructor
      · intro hp
        exact ⟨h1.1, h1.2.1, h1.2.2, by omega, by omega, by omega⟩
      · intro hp
        omega
    · rw [if_neg h2]
      constructor
      · intro hp
        exact Option.noConfusion hp
      · intro hp
        exact absurd (show (0 : Int) ≤ (note : Int) - 48 ∧ (note : Int) - 48 < 16 by
          omega) h2
  · rw [if_neg h1]
    constructor
    · intro hp
      exact Option.noConfusion hp
    · intro hp
      exact absurd ⟨hp.1, hp.2.1, hp.2.2.1⟩ h1

/-- C8: Every backend route handler returns a fixed placeholder response and
  performs no persistence or state change: getUserSamples responds with an
  empty samples array echoing the requested userId, deleteSample responds
  with a success message naming the given id while deleting nothing, and the
  remaining handlers answer constant placeholder messages. -/
theorem backend_handlers_are_stubs (store : Store) (userId id profileId : String) :
    audioController.uploadSample store
      = (store, ApiResponse.msg "Upload sample endpoint - Coming soon!") ∧
    audioController.downloadFromUrl store
      = (store, ApiResponse.msg "Download from URL endpoint - Coming soon!") ∧
    audioController.getUserSamples store userId
      = (store, ApiResponse.samplesFor [] userId) ∧
    audioController.deleteSample store id
      = (store, ApiResponse.msg ("Sample " ++ id ++ " deleted")) ∧
    userController.register store
      = (store, ApiResponse.msg "User registration - Coming soon!") ∧
    userController.login store
      = (store, ApiResponse.msg "User login - Coming soon!") ∧
    userController.getProfile store profileId
      = (store, ApiResponse.msg ("User profile " ++ profileId ++ " - Coming soon!")) :=
  ⟨rfl, rfl, rfl, rfl, rfl, rfl, rfl⟩

/-- C3: During playback, when the swing of the step or of the pattern is
  positive, the scheduled trigger time is delayed relative to the base time
  exactly on odd step indices, and on even step indices swing never changes
  the scheduled time, in the naive and in the optimized swing branch alike. -/
theorem swing_delays_only_odd_steps (p : SequencerPattern) (step : SequencerStep)
    (stepIndex : Nat) (t : ℚ) (h : step.swing > 0 ∨ p.swing > 0) :
    (stepIndex % 2 = 1 →
      swungTimeNaive p step stepIndex t > t ∧ swungTimeOpt p step stepIndex t > t) ∧
    (stepIndex % 2 = 0 →
      swungTimeNaive p step stepIndex t = t ∧ swungTimeOpt p step stepIndex t = t) := by
  have hmax : 0 < max step.swing p.swing := by
    rcases h with h | h
    · exact lt_max_of_lt_left h
    · exact lt_max_of_lt_right h
  constructor
  · intro hodd
    unfold swungTimeNaive swungTimeOpt
    rw [if_pos h, if_pos h, if_pos hodd, if_pos hodd]
    constructor <;> nlinarith
  · intro heven
    have hne : ¬ stepIndex % 2 = 1 := by omega
    unfold swungTimeNaive swungTimeOpt
    rw [if_pos h, if_pos h, if_neg hne, if_neg hne]
    exact ⟨rfl, rfl⟩

/-- Witness for C3 at step index 1 and a step with swing 50. -/
theorem swing_delays_only_odd_steps_witness :
    swungTimeNaive initialPattern swingStep 1 0 > 0 ∧
    swungTimeOpt initialPattern swingStep 1 0 > 0 :=
  (swing_delays_only_odd_steps initialPattern swingStep 1 0
    (Or.inl (by norm_num [swingStep, defaultStep]))).1 rfl

/-- C4: During playback, an active step on an unmuted track is skipped by
  the probability gate exactly when the random draw times 100 strictly
  exceeds the probability of the step; a step with probability 100 always
  passes the gate when the draw lies in [0, 1). Both playback paths share
  the gate. -/
theorem probability_gate_spec (p : SequencerPattern) (s : Nat) (time : ℚ)
    (draws : Nat → ℚ) (k : Nat) (track : SequencerTrack) (step : SequencerStep)
    (hm : track.mute = false) (hstep : track.steps[s]? = some step)
    (ha : step.isActive = true) :
    (((processTrackNaive p s time draws k track).1 = []) ↔
      draws k * 100 > step.probability) ∧
    (((processTrackOpt p s time draws k track).1 = []) ↔
      draws k * 100 > step.probability) ∧
    (0 ≤ draws k → draws k < 1 → step.probability = 100 →
      (processTrackNaive p s time draws k track).1 ≠ [] ∧
      (processTrackOpt p s time draws k track).1 ≠ []) := by
  simp only [processTrackNaive, processTrackOpt, hm, hstep, ha,
    Bool.false_eq_true, if_false, Bool.not_true]
  refine ⟨?_, ?_, ?_⟩
  · by_cases hg : draws k * 100 > step.probability
    · simp [hg]
    · simp [hg]
  · by_cases hg : draws k * 100 > step.probability
    · simp [hg]
    · simp [hg]
  · intro h0 h1 h100
    have hlt : draws k * 100 < 100 := by nlinarith
    have hg : ¬ draws k * 100 > step.probability := by
      rw [h100]; linarith
    constructor <;> simp [hg]

/-- Witness for C4 on the concrete one-step pattern with the zero draw
  stream. -/
theorem probability_gate_spec_witness :
    (processTrackNaive cPattern 0 0 (fun _ => 0) 0 cTrack).1 ≠ [] ∧
    (processTrackOpt cPattern 0 0 (fun _ => 0) 0 cTrack).1 ≠ [] :=
  (probability_gate_spec cPattern 0 0 (fun _ => 0) 0 cTrack cStep rfl rfl rfl).2.2
    (by norm_num) (by norm_num) rfl

/-- C1 (amended): the step playback cache is fully consistent with the
  current pattern at construction, when play() starts, and after mute and
  solo toggles, which all run a full precompute; a step toggle recomputes
  exactly the cache entry of the toggled index against the new pattern and
  leaves every other entry at its previous value; velocity and pan updates
  leave the cache entirely unchanged. -/
theorem stepPlaybackCache_consistency :
    cacheConsistent initialService.pattern initialService.cache ∧
    (∀ st : ServiceState, cacheConsistent (play st).pattern (play st).cache) ∧
    (∀ st tid, cacheConsistent (toggleMute st tid).pattern (toggleMute st tid).cache) ∧
    (∀ st tid, cacheConsistent (toggleSolo st tid).pattern (toggleSolo st tid).cache) ∧
    (∀ st tid s, (toggleStepImmediate st tid s).cache s
        = some (activeTracksForStep (toggleStepImmediate st tid s).pattern s) ∧
      ∀ s2, s2 ≠ s → (toggleStepImmediate st tid s).cache s2 = st.cache s2) ∧
    (∀ st tid s v, (updateStepVelocityImmediate st tid s v).cache = st.cache) ∧
    (∀ st tid s v, (updateStepPanImmediate st tid s v).cache = st.cache) := by
  refine ⟨precompute_consistent _, fun st => precompute_consistent _,
    fun st tid => precompute_consistent _, fun st tid => precompute_consistent _,
    ?_, fun _ _ _ _ => rfl, fun _ _ _ _ => rfl⟩
  intro st tid s
  constructor
  · simp [toggleStepImmediate, updateStepCache, cacheSet]
  · intro s2 hs2
    simp [toggleStepImmediate, updateStepCache, cacheSet, hs2]

/-- Witness for C1 applying the step toggle clause at a concrete state. -/
theorem stepPlaybackCache_consistency_witness :
    (1 : Nat) ≠ 0 ∧
    (toggleStepImmediate initialService "track-0" 0).cache 1
      = initialService.cache 1 :=
  ⟨by decide,
    (stepPlaybackCache_consistency.2.2.2.2.1 initialService "track-0" 0).2 1
      (by decide)⟩

/-! ## Range invariant (C9) -/

theorem patternRangesOK_updateTrackStep (p : SequencerPattern) (tid : String)
    (f : SequencerStep → SequencerStep) (s : Nat)
    (hf : ∀ st, stepRangesOK st → stepRangesOK (f st))
    (hp : patternRangesOK p) : patternRangesOK (updateTrackStep p tid f s) := by
  obtain ⟨hsteps, hsw⟩ := hp
  refine ⟨?_, hsw⟩
  intro t ht st hst
  simp only [updateTrackStep, List.mem_map] at ht
  obtain ⟨t0, ht0, rfl⟩ := ht
  by_cases hid : t0.id = tid
  · simp only [patchTrack, if_pos hid, patchSteps] at hst
    obtain ⟨j, a, ha, rfl⟩ := mem_mapWithIndex hst
    by_cases hj : j = s
    · rw [if_pos hj]
      exact hf a (hsteps t0 ht0 a ha)
    · rw [if_neg hj]
      exact hsteps t0 ht0 a ha
  · simp only [patchTrack, if_neg hid] at hst
    exact hsteps t0 ht0 st hst

theorem applyUpdate_preserves_ranges (st : ServiceState) (op : UpdateOp)
    (h : serviceRangesOK st) : serviceRangesOK (applyUpdate st op) := by
  obtain ⟨hp, hb⟩ := h
  cases op with
  | velocity tid s v =>
    refine ⟨?_, hb⟩
    refine patternRangesOK_updateTrackStep _ _ _ _ ?_ hp
    intro st0 h0
    exact ⟨le_max_left _ _, max_le (by norm_num) (min_le_left _ _),
      h0.2.2.1, h0.2.2.2⟩
  | pan tid s v =>
    refine ⟨?_, hb⟩
    refine patternRangesOK_updateTrackStep _ _ _ _ ?_ hp
    intro st0 h0
    exact ⟨h0.1, h0.2.1, le_max_left _ _,
      max_le (by norm_num) (min_le_left _ _)⟩
  | humanize a =>
    exact ⟨⟨hp.1, hp.2.1, hp.2.2.1, le_max_left _ _,
      max_le (by norm_num) (min_le_left _ _)⟩, hb⟩
  | swing a =>
    exact ⟨⟨hp.1, le_max_left _ _, max_le (by norm_num) (min_le_left _ _),
      hp.2.2.2.1, hp.2.2.2.2⟩, hb⟩
  | bpm b =>
    exact ⟨hp, le_max_left _ _, max_le (by norm_num) (min_le_left _ _)⟩

/-- C9: starting from the initial pattern, after any sequence of the public
  update operations, every velocity of a step lies in [0, 127], every pan of
  a step lies in [-1, 1], the global swing and humanize of the pattern lie
  in [0, 100], and the bpm of the playback state lies in [60, 200], for
  every input value passed to those operations. -/
theorem update_ops_preserve_ranges (ops : List UpdateOp) :
    serviceRangesOK (ops.foldl applyUpdate initialService) := by
  have hgen : ∀ (ops : List UpdateOp) (st : ServiceState), serviceRangesOK st →
      serviceRangesOK (ops.foldl applyUpdate st) := by
    intro ops
    induction ops with
    | nil => intro st h; exact h
    | cons op rest ih =>
      intro st h
      exact ih _ (applyUpdate_preserves_ranges st op h)
  refine hgen ops initialService ⟨?_, ?_, ?_⟩
  · show patternRangesOK initialPattern
    unfold patternRangesOK stepRangesOK
    decide
  · show (60 : ℚ) ≤ 120
    norm_num
  · show (120 : ℚ) ≤ 200
    norm_num

/-! ## Step toggle: involution and frame conditions (C10) -/

theorem map_id_of {α : Type} {f : α → α} :
    ∀ {l : List α}, (∀ a ∈ l, f a = a) → l.map f = l := by
  intro l
  induction l with
  | nil => intro _; rfl
  | cons a as ih =>
    intro h
    simp only [List.map_cons]
    rw [h a (List.mem_cons_self a as), ih (fun b hb => h b (List.mem_cons_of_mem a hb))]

theorem patchSteps_length (f : SequencerStep → SequencerStep) (s : Nat)
    (l : List SequencerStep) : (patchSteps f s l).length = l.length :=
  mapWithIndex_length _ _ _

theorem patchSteps_getElem? (f : SequencerStep → SequencerStep) (s : Nat)
    (l : List SequencerStep) (j : Nat) :
    (patchSteps f s l)[j]? = (l[j]?).map (fun st => if j = s then f st else st) := by
  unfold patchSteps
  rw [mapWithIndex_getElem?]
  simp

theorem patchTrack_invol (tid : String) (f : SequencerStep → SequencerStep)
    (s : Nat) (hf : ∀ a, f (f a) = a) (t : SequencerTrack) :
    patchTrack tid f s (patchTrack tid f s t) = t := by
  have hsteps : ∀ l : List SequencerStep, patchSteps f s (patchSteps f s l) = l := by
    intro l
    unfold patchSteps
    refine mapWithIndex_invol _ ?_ 0 l
    intro j a
    by_cases hj : j = s
    · rw [if_pos hj, if_pos hj, hf]
    · rw [if_neg hj, if_neg hj]
  unfold patchTrack
  by_cases hid : t.id = tid
  · rw [if_pos hid, if_pos hid, hsteps]
  · rw [if_neg hid, if_neg hid]

theorem updateTrackStep_tracks_getElem? (p : SequencerPattern) (tid : String)
    (f : SequencerStep → SequencerStep) (s : Nat) (i : Nat) :
    (updateTrackStep p tid f s).tracks[i]?
      = (p.tracks[i]?).map (patchTrack tid f s) := by
  simp [updateTrackStep]

theorem updateTrackStep_invol (p : SequencerPattern) (tid : String) (s : Nat)
    (f : SequencerStep → SequencerStep) (hf : ∀ a, f (f a) = a) :
    updateTrackStep (updateTrackStep p tid f s) tid f s = p := by
  show { p with tracks := (p.tracks.map _).map _ } = p
  rw [map_invol _ (patchTrack_invol tid f s hf)]

/-- C10: applying the step-toggle pattern update twice returns the pattern
  to its original value; a single application keeps the id, name, length,
  swing and humanize of the pattern, keeps the track count, keeps every
  track whose id differs, and on each track with the given id flips exactly
  the isActive flag of the step at the given index, keeping every other
  field and every other step; when no track has the given id the pattern is
  unchanged. -/
theorem toggleStep_involutive_frame (p : SequencerPattern) (tid : String) (s : Nat) :
    toggleStepPattern (toggleStepPattern p tid s) tid s = p ∧
    ((toggleStepPattern p tid s).id = p.id ∧
     (toggleStepPattern p tid s).name = p.name ∧
     (toggleStepPattern p tid s).length = p.length ∧
     (toggleStepPattern p tid s).swing = p.swing ∧
     (toggleStepPattern p tid s).humanize = p.humanize) ∧
    (toggleStepPattern p tid s).tracks.length = p.tracks.length ∧
    (∀ (i : Nat) (track : SequencerTrack), p.tracks[i]? = some track →
      track.id ≠ tid → (toggleStepPattern p tid s).tracks[i]? = some track) ∧
    (∀ (i : Nat) (track : SequencerTrack), p.tracks[i]? = some track →
      track.id = tid →
      ∃ track2 : SequencerTrack,
        (toggleStepPattern p tid s).tracks[i]? = some track2 ∧
        track2.id = track.id ∧ track2.padIndex = track.padIndex ∧
        track2.name = track.name ∧ track2.mute = track.mute ∧
        track2.solo = track.solo ∧ track2.volume = track.volume ∧
        track2.pan = track.pan ∧ track2.color = track.color ∧
        track2.isSelected = track.isSelected ∧
        track2.steps.length = track.steps.length ∧
        (∀ (j : Nat) (st : SequencerStep), j ≠ s → track.steps[j]? = some st →
          track2.steps[j]? = some st) ∧
        (∀ st : SequencerStep, track.steps[s]? = some st →
          track2.steps[s]? = some { st with isActive := !st.isActive })) ∧
    ((∀ t ∈ p.tracks, t.id ≠ tid) → toggleStepPattern p tid s = p) := by
  refine ⟨?_, ⟨rfl, rfl, rfl, rfl, rfl⟩, ?_, ?_, ?_, ?_⟩
  · exact updateTrackStep_invol p tid s _ (fun a => by simp)
  · show (p.tracks.map _).length = p.tracks.length
    exact List.length_map _ _
  · intro i track hi hne
    rw [toggleStepPattern, updateTrackStep_tracks_getElem?, hi]
    simp [patchTrack, hne]
  · intro i track hi hid
    refine ⟨patchTrack tid
        (fun step => { step with isActive := !step.isActive }) s track,
      ?_, ?_, ?_, ?_, ?_, ?_, ?_, ?_, ?_, ?_, ?_, ?_, ?_⟩
    · rw [toggleStepPattern, updateTrackStep_tracks_getElem?, hi]
      rfl
    · simp [patchTrack, hid]
    · simp [patchTrack, hid]
    · simp [patchTrack, hid]
    · simp [patchTrack, hid]
    · simp [patchTrack, hid]
    · simp [patchTrack, hid]
    · simp [patchTrack, hid]
    · simp [patchTrack, hid]
    · simp [patchTrack, hid]
    · simp [patchTrack, hid, patchSteps_length]
    · intro j st hj hst
      simp only [patchTrack, if_pos hid]
      show (patchSteps _ s track.steps)[j]? = some st
      rw [patchSteps_getElem?, hst]
      simp [hj]
    · intro st hst
      simp only [patchTrack, if_pos hid]
      show (patchSteps _ s track.steps)[s]? = some _
      rw [patchSteps_getElem?, hst]
      simp
  · intro hall
    show { p with tracks := p.tracks.map _ } = p
    rw [map_id_of (fun t ht => by simp [patchTrack, hall t ht])]

/-- Witness for C10: in the initial pattern, toggling a step of track 0
  leaves track 1 untouched. -/
theorem toggleStep_involutive_frame_witness :
    (toggleStepPattern initialPattern "track-0" 0).tracks[1]? = some (mkTrack 1) :=
  (toggleStep_involutive_frame initialPattern "track-0" 0).2.2.2.1 1 (mkTrack 1)
    (by decide) (by decide)
/-! ## Equivalence of the optimized and the naive playback path (C2) -/

theorem humanizedTime_eq (p : SequencerPattern) (step : SequencerStep)
    (time : ℚ) (draws : Nat → ℚ) (k : Nat) :
    humanizedTimeOpt p step time draws k = humanizedTimeNaive p step time draws k := by
  unfold humanizedTimeOpt humanizedTimeNaive
  by_cases h : step.humanize > 0 ∨ p.humanize > 0
  · rw [if_pos h, if_pos h]
    simp only [Prod.mk.injEq, and_true]
    ring
  · rw [if_neg h, if_neg h]

theorem swungTime_eq (p : SequencerPattern) (step : SequencerStep)
    (stepIndex : Nat) (t : ℚ) :
    swungTimeOpt p step stepIndex t = swungTimeNaive p step stepIndex t := by
  unfold swungTimeOpt swungTimeNaive
  by_cases h : step.swing > 0 ∨ p.swing > 0
  · rw [if_pos h, if_pos h]
    by_cases ho : stepIndex % 2 = 1
    · rw [if_pos ho, if_pos ho]
      ring
    · rw [if_neg ho, if_neg ho]
  · rw [if_neg h, if_neg h]

theorem processTrack_equiv (p : SequencerPattern) (s : Nat) (time : ℚ)
    (draws : Nat → ℚ) (k : Nat) (track : SequencerTrack)
    (hm : track.mute = false) :
    processTrackOpt p s time draws k track
      = ((processTrackNaive p s time draws k track).1.map scaleVel,
         (processTrackNaive p s time draws k track).2) := by
  unfold processTrackOpt processTrackNaive
  simp only [hm, Bool.false_eq_true, if_false]
  cases track.steps[s]? with
  | none => simp
  | some step =>
    by_cases ha : step.isActive = true
    · simp only [ha, Bool.not_true, Bool.false_eq_true, if_false]
      by_cases hg : draws k * 100 > step.probability
      · simp [hg]
      · simp only [hg, if_false]
        rw [humanizedTime_eq]
        simp only [List.map_cons, List.map_nil, scaleVel]
        have hv : step.velocity * (7874/1000000)
            = step.velocity / 127 * (499999/500000) := by ring
        rw [hv, swungTime_eq]
    · have ha2 : step.isActive = false := by
        cases hcase : step.isActive
        · rfl
        · exact absurd hcase ha
      simp [ha2]

theorem processTrackNaive_inactive (p : SequencerPattern) (s : Nat) (time : ℚ)
    (draws : Nat → ℚ) (k : Nat) (t : SequencerTrack)
    (hm : t.mute = false) (ha : stepActive t s = false) :
    processTrackNaive p s time draws k t = ([], k) := by
  unfold processTrackNaive
  simp only [hm, Bool.false_eq_true, if_false]
  cases hstep : t.steps[s]? with
  | none => rfl
  | some step =>
    have hia : step.isActive = false := by
      unfold stepActive at ha
      rw [hstep] at ha
      simpa using ha
    simp [hia]

theorem runTracks_equiv (p : SequencerPattern) (s : Nat) (time : ℚ)
    (draws : Nat → ℚ) :
    ∀ (tracks : List SequencerTrack) (k : Nat),
      runTracksOpt p s time draws
          (tracks.filter (fun t => !t.mute && stepActive t s)) k
        = ((runTracksNaive p s time draws tracks k).1.map scaleVel,
           (runTracksNaive p s time draws tracks k).2) := by
  intro tracks
  induction tracks with
  | nil => intro k; simp [runTracksOpt, runTracksNaive]
  | cons t ts ih =>
    intro k
    by_cases hm : t.mute = true
    · have hpred : (!t.mute && stepActive t s) = false := by rw [hm]; rfl
      have hproc : processTrackNaive p s time draws k t = ([], k) := by
        unfold processTrackNaive
        simp [hm]
      simp only [List.filter_cons, hpred, Bool.false_eq_true, if_false]
      conv_rhs => rw [runTracksNaive]
      rw [hproc]
      simpa using ih k
    · have hm2 : t.mute = false := by
        cases hcase : t.mute
        · rfl
        · exact absurd hcase hm
      by_cases ha : stepActive t s = true
      · have hpred : (!t.mute && stepActive t s) = true := by rw [hm2, ha]; rfl
        simp only [List.filter_cons, hpred, if_true]
        conv_lhs => rw [runTracksOpt]
        conv_rhs => rw [runTracksNaive]
        rw [processTrack_equiv p s time draws k t hm2]
        rw [ih (processTrackNaive p s time draws k t).2]
        simp [List.map_append]
      · have ha2 : stepActive t s = false := by
          cases hcase : stepActive t s
          · rfl
          · exact absurd hcase ha
        have hpred : (!t.mute && stepActive t s) = false := by
          rw [hm2, ha2]; rfl
        have hproc := processTrackNaive_inactive p s time draws k t hm2 ha2
        simp only [List.filter_cons, hpred, Bool.false_eq_true, if_false]
        conv_rhs => rw [runTracksNaive]
        rw [hproc]
        simpa using ih k

/-- C2 (amended): reading the cache computed by precomputeStepPlayback from
  the same pattern, playStepOptimized consumes the random draw stream
  exactly like the naive playStep and triggers the same pads at the same
  scheduled times with the same pans, in the same order; each triggered
  velocity however is the naive velocity scaled by 499999/500000, because
  the optimized path multiplies by the constant 0.007874 where the naive
  path divides by 127, so velocities agree only at velocity zero. -/
theorem playStepOptimized_refines_playStep (p : SequencerPattern) (s : Nat)
    (time : ℚ) (draws : Nat → ℚ) (hs : s < p.length) :
    playStepOptimized (precomputeStepPlayback p) p s time draws
      = ((playStep p s time draws).1.map scaleVel,
         (playStep p s time draws).2) ∧
    (playStepOptimized (precomputeStepPlayback p) p s time draws).1.map
        (fun e => e.padIndex)
      = (playStep p s time draws).1.map (fun e => e.padIndex) ∧
    (playStepOptimized (precomputeStepPlayback p) p s time draws).1.map
        (fun e => e.time)
      = (playStep p s time draws).1.map (fun e => e.time) ∧
    (playStepOptimized (precomputeStepPlayback p) p s time draws).1.map
        (fun e => e.pan)
      = (playStep p s time draws).1.map (fun e => e.pan) := by
  have hcache : precomputeStepPlayback p s = some (activeTracksForStep p s) := by
    rw [precomputeStepPlayback_get, if_pos hs]
  have hmain : playStepOptimized (precomputeStepPlayback p) p s time draws
      = ((playStep p s time draws).1.map scaleVel,
         (playStep p s time draws).2) := by
    unfold playStepOptimized
    rw [hcache]
    dsimp only
    by_cases he : (activeTracksForStep p s).isEmpty
    · rw [if_pos he]
      have h0 : activeTracksForStep p s = [] := by
        cases hl : activeTracksForStep p s
        · rfl
        · rw [hl] at he
          exact absurd he (by simp)
      have h3 : runTracksOpt p s time draws (activeTracksForStep p s) 0
          = ((playStep p s time draws).1.map scaleVel,
             (playStep p s time draws).2) :=
        runTracks_equiv p s time draws p.tracks 0
      rw [h0] at h3
      exact h3
    · rw [if_neg he]
      exact runTracks_equiv p s time draws p.tracks 0
  refine ⟨hmain, ?_, ?_, ?_⟩ <;> rw [hmain] <;> rw [List.map_map] <;> rfl

/-- Witness for C2 on the initial pattern at step 0 with the zero draw
  stream. -/
theorem playStepOptimized_refines_playStep_witness :
    0 < initialPattern.length ∧
    playStepOptimized (precomputeStepPlayback initialPattern) initialPattern
        0 0 (fun _ => 0)
      = ((playStep initialPattern 0 0 (fun _ => 0)).1.map scaleVel,
         (playStep initialPattern 0 0 (fun _ => 0)).2) :=
  ⟨by decide,
    (playStepOptimized_refines_playStep initialPattern 0 0 (fun _ => 0)
      (by decide)).1⟩

/-- Counterexample for C2 as stated: on a concrete one-track pattern with an
  active step of velocity 100 and probability 100, the optimized path
  triggers velocity 0.7874 while the naive path triggers 100/127, so the
  velocities differ. -/
theorem playStepOptimized_velocity_counterexample :
    (playStepOptimized (precomputeStepPlayback cPattern) cPattern 0 0
        (fun _ => 0)).1.map (fun e => e.velocity)
      ≠ (playStep cPattern 0 0 (fun _ => 0)).1.map (fun e => e.velocity) := by
  have hcache : precomputeStepPlayback cPattern 0 = some [cTrack] := by
    rw [precomputeStepPlayback_get]
    simp [cPattern, activeTracksForStep, stepActive, cTrack, cStep, defaultStep]
  simp only [playStepOptimized]
  rw [hcache]
  norm_num [runTracksOpt, runTracksNaive, processTrackOpt, processTrackNaive,
    humanizedTimeOpt, humanizedTimeNaive, swungTimeOpt, swungTimeNaive,
    playStep, cPattern, cTrack, cStep, defaultStep]

/-- Service state reached from construction by toggling step 0 and then
  step 1 of track 0: the second toggle refreshes only cache entry 1, so
  entry 0 still holds the track value from before the second toggle. -/
def staleToggleState : ServiceState :=
  toggleStepImmediate (toggleStepImmediate initialService "track-0" 0) "track-0" 1

/-- Service state reached from construction by toggling step 0 of track 0
  and then setting the velocity of that step to 50: the velocity update does
  not touch the cache, so entry 0 still holds the track with velocity 100. -/
def staleVelocityState : ServiceState :=
  updateStepVelocityImmediate (toggleStepImmediate initialService "track-0" 0)
    "track-0" 0 50

/-- Counterexample for C1 as stated: after a second step toggle on the same
  track, and likewise after a velocity update, the step playback cache no
  longer maps every step index to the current values of the active unmuted
  tracks. -/
theorem stepPlaybackCache_consistency_counterexample :
    (¬ cacheConsistent staleToggleState.pattern staleToggleState.cache) ∧
    (¬ cacheConsistent staleVelocityState.pattern staleVelocityState.cache) := by
  constructor
  · intro h
    exact absurd (h 0 (by decide)) (by decide)
  · intro h
    exact absurd (h 0 (by decide)) (by decide)

/-- C7: the QWERTY mapping is a static table sending q,w,e,r,t,y,u,i to pad
  indices 0 through 7 and a,s,d,f,g,h,j,k to pad indices 8 through 15,
  bijectively onto 0 through 15; on keydown of one of these keys that is not
  already held in the pressed-keys set, handleKeyDown triggers exactly the
  mapped pad and records the key as pressed. -/
theorem qwerty_layout_spec :
    (qwertyMapping.map (fun m => m.key)
      = ["q", "w", "e", "r", "t", "y", "u", "i",
         "a", "s", "d", "f", "g", "h", "j", "k"]) ∧
    (qwertyMapping.map (fun m => m.padIndex) = List.range 16) ∧
    (∀ (m : KeyMapping) (pressed : List String), m ∈ qwertyMapping →
      pressed.contains m.key = false →
      handleKeyDown pressed m.key = (some m.padIndex, m.key :: pressed)) := by
  refine ⟨by decide, by decide, ?_⟩
  intro m pressed hm hc
  have hlow : strToLower m.key = m.key := by fin_cases hm <;> decide
  have hfind : qwertyMapping.find? (fun mm => mm.key == m.key) = some m := by
    fin_cases hm <;> decide
  unfold handleKeyDown
  rw [hlow]
  simp only [hc, Bool.false_eq_true, if_false, hfind]

/-- Witness for C7: pressing q with nothing held triggers pad 0. -/
theorem qwerty_layout_spec_witness :
    handleKeyDown [] "q" = (some 0, ["q"]) :=
  qwerty_layout_spec.2.2 { key := "q", padIndex := 0 } [] (by decide) rfl

end Vynl
